import Mathlib

/-!
# Verification of `molmod`'s pairwise force-field engine (`lib/pairff.py`)

This file contains a shallow embedding of the `PairFF` evaluator family
(`PairFF`, `CoulombFF`, `DispersionFF`, `PauliFF`) from `lib/pairff.py`,
together with theorems checking the specification's claims about it.

Two embeddings are used:

* an indexed, exact-real model (`Vec3 := Fin 3 → ℝ`, coordinates
  `Fin n → Vec3`, mask entries in `ℚ` so that the `mask > 0` tests of the
  source stay decidable), used for the algebraic and numerical claims; and
* a list-based operational model (`PairFFB`) in which attribute access and
  `numpy`-style indexing can fail, returning `Except PyErr`, used for the
  error-handling claims (missing coordinates, dimension mismatches).

Python/numpy semantics modelled here: `numpy` elementwise arithmetic is
componentwise arithmetic; `numpy.dot` on 3-vectors is the Euclidean inner
product; `numpy.outer(u, v)[a, b] = u[a]*v[b]`; indexing a 2-D array out of
range raises `IndexError`; reading an attribute never assigned raises
`AttributeError`; generators are modelled as the (finite) lists of the
values they yield, and `zip` truncates to the shortest argument.
-/

/-- A 3-component real vector (a row of a numpy `(n, 3)` array). -/
abbrev Vec3 : Type := Fin 3 → ℝ

/-- A 3×3 real matrix (a numpy `(3, 3)` array). -/
abbrev Mat3 : Type := Fin 3 → Fin 3 → ℝ

/-- Model of `numpy.dot` on 3-vectors. -/
noncomputable def dot3 (u v : Vec3) : ℝ := ∑ a : Fin 3, u a * v a

/-- Euclidean norm of a 3-vector, as computed by
`math.sqrt(numpy.dot(delta, delta))` in `update_coordinates`. -/
noncomputable def norm3 (u : Vec3) : ℝ := Real.sqrt (dot3 u u)

/-- Model of `numpy.outer` of two 3-vectors. -/
noncomputable def outer3 (u v : Vec3) : Mat3 := fun a b => u a * v b

/-- Model of `numpy.identity(3, float)`. -/
def ident3 : Mat3 := fun a b => if a = b then 1 else 0

namespace PairFF

/-- The geometry cache rebuilt by `PairFF.update_coordinates`: the fields
`deltas`, `distances`, `directions` and `dirouters` of the evaluator. -/
structure GeomCache (n : ℕ) where
  deltas : Fin n → Fin n → Vec3
  distances : Fin n → Fin n → ℝ
  directions : Fin n → Fin n → Vec3
  dirouters : Fin n → Fin n → Mat3

/-- Model of `PairFF.update_coordinates`: from the coordinates, build the cache of
pairwise displacements `delta = c_i - c_j`, distances
`sqrt(dot(delta, delta))`, unit directions `delta/distance` and direction
outer products.  For a self pair (`index1 == index2`) the direction and
outer product are left at their zero initialisation and no division is
performed, exactly as in the source's `if index1 != index2:` branch. -/
noncomputable def update_coordinates (n : ℕ) (c : Fin n → Vec3) : GeomCache n where
  deltas := fun i j => c i - c j
  distances := fun i j => norm3 (c i - c j)
  directions := fun i j =>
    if i = j then 0 else fun a => (c i - c j) a / norm3 (c i - c j)
  dirouters := fun i j =>
    if i = j then 0 else
      outer3 (fun a => (c i - c j) a / norm3 (c i - c j))
             (fun a => (c i - c j) a / norm3 (c i - c j))

/-- The state of a `PairFF` evaluator in the total model: the stored mask
and coordinates together with the derived geometry cache. -/
structure State (n : ℕ) where
  mask : Fin n → Fin n → ℚ
  coordinates : Fin n → Vec3
  cache : GeomCache n

/-- Model of `PairFF.__init__` with initial coordinates: stores the coordinates,
rebuilds the cache, stores the mask and zeroes its diagonal (the source's
`self.mask.ravel()[::len(self.mask)+1] = 0`, which for a square `n × n`
mask assigns exactly the entries `mask[i][i]`). -/
noncomputable def init (n : ℕ) (mask : Fin n → Fin n → ℚ) (c : Fin n → Vec3) :
    State n where
  mask := fun i j => if i = j then 0 else mask i j
  coordinates := c
  cache := update_coordinates n c

/-- The `update_coordinates` method acting on an evaluator state: replaces
the coordinates and rebuilds the cache; the mask field is not touched. -/
noncomputable def State.updateCoordinates {n : ℕ} (s : State n)
    (c : Fin n → Vec3) : State n :=
  { s with coordinates := c, cache := update_coordinates n c }

/-- The inner sum of `PairFF.energy` for one unmasked pair:
`sum_k se_k * ve_k * mask[i, j]`. -/
def pairEnergy {n : ℕ} (mask : Fin n → Fin n → ℚ)
    (yE : Fin n → Fin n → List (ℝ × ℝ)) (i j : Fin n) : ℝ :=
  ((yE i j).map (fun t => t.1 * t.2 * (mask i j : ℝ))).sum

/-- Model of `PairFF.energy`: sum over `index1 in range(numc)`, `index2 in
range(index1)` with `mask[index1, index2] > 0` of the pair's term sum.
The term providers `yield_pair_energies` of the subclasses are passed as
the function `yE`. -/
def energy {n : ℕ} (mask : Fin n → Fin n → ℚ)
    (yE : Fin n → Fin n → List (ℝ × ℝ)) : ℝ :=
  ∑ i : Fin n, ∑ j ∈ Finset.univ.filter (fun j => j < i),
    (if 0 < mask i j then pairEnergy mask yE i j else 0)

/-- Model of `PairFF.gradient_component`: componentwise,
`sum_j [mask>0] sum_k (sg_k*directions[i,j]*ve_k + se_k*vg_k)*mask[i,j]`,
where the energy and gradient term sequences are consumed in lock-step
(`zip`, truncating to the shorter). -/
def gradient_component {n : ℕ} (mask : Fin n → Fin n → ℚ) (g : GeomCache n)
    (yE : Fin n → Fin n → List (ℝ × ℝ))
    (yG : Fin n → Fin n → List (ℝ × Vec3)) (i : Fin n) : Vec3 := fun a =>
  ∑ j : Fin n,
    (if 0 < mask i j then
      (((yE i j).zip (yG i j)).map (fun t =>
        (t.2.1 * g.directions i j a * t.1.2 + t.1.1 * t.2.2 a) *
          (mask i j : ℝ))).sum
    else 0)

/-- Model of `PairFF.gradient`: the rows `gradient_component(index1)`. -/
def gradient {n : ℕ} (mask : Fin n → Fin n → ℚ) (g : GeomCache n)
    (yE : Fin n → Fin n → List (ℝ × ℝ))
    (yG : Fin n → Fin n → List (ℝ × Vec3)) : Fin n → Vec3 :=
  fun i => gradient_component mask g yE yG i

/-- One pair's contribution inside `PairFF.hessian_component` (the
four-piece product-rule block plus `se*vh`, times the mask weight), entry
`(a, b)`; `d_1 = 1/distances[i,j]` as in the source. -/
noncomputable def hessBlockEntry {n : ℕ} (mask : Fin n → Fin n → ℚ)
    (g : GeomCache n)
    (yE : Fin n → Fin n → List (ℝ × ℝ))
    (yG : Fin n → Fin n → List (ℝ × Vec3))
    (yH : Fin n → Fin n → List (ℝ × Mat3)) (i j : Fin n) (a b : Fin 3) : ℝ :=
  (((yE i j).zip ((yG i j).zip (yH i j))).map (fun t =>
    ( t.2.2.1 * g.dirouters i j a b * t.1.2
    + t.2.1.1 * (ident3 a b - g.dirouters i j a b) * t.1.2 *
        (g.distances i j)⁻¹
    + t.2.1.1 * (g.directions i j a * t.2.1.2 b)
    + t.2.1.1 * (t.2.1.2 a * g.directions i j b)
    + t.1.1 * t.2.2.2 a b) * (mask i j : ℝ))).sum

/-- Model of `PairFF.hessian_component`: for `index1 == index2` the sum over
`index3` of the unmasked blocks; otherwise, when `mask[index1, index2] > 0`,
the negated block of the pair itself; zero otherwise. -/
noncomputable def hessian_component {n : ℕ} (mask : Fin n → Fin n → ℚ)
    (g : GeomCache n)
    (yE : Fin n → Fin n → List (ℝ × ℝ))
    (yG : Fin n → Fin n → List (ℝ × Vec3))
    (yH : Fin n → Fin n → List (ℝ × Mat3)) (i j : Fin n) : Mat3 := fun a b =>
  if i = j then
    ∑ k : Fin n,
      (if 0 < mask i k then hessBlockEntry mask g yE yG yH i k a b else 0)
  else
    if 0 < mask i j then -hessBlockEntry mask g yE yG yH i j a b else 0

/-- Model of `PairFF.hessian`: the `n × n` grid of 3×3 blocks. -/
noncomputable def hessian {n : ℕ} (mask : Fin n → Fin n → ℚ) (g : GeomCache n)
    (yE : Fin n → Fin n → List (ℝ × ℝ))
    (yG : Fin n → Fin n → List (ℝ × Vec3))
    (yH : Fin n → Fin n → List (ℝ × Mat3)) : Fin n → Fin n → Mat3 :=
  fun i j => hessian_component mask g yE yG yH i j

end PairFF

namespace CoulombFF

/-- Model of `CoulombFF.yield_pair_energies`: the list of `(s, v)` pairs produced by
the generator, in yield order; terms guarded by `if self.charges is not
None` / `if self.dipoles is not None` are omitted when the option is
unset. -/
noncomputable def yield_pair_energies {n : ℕ} (g : PairFF.GeomCache n)
    (charges : Option (Fin n → ℝ)) (dipoles : Option (Fin n → Vec3))
    (i j : Fin n) : List (ℝ × ℝ) :=
  let d_1 := (g.distances i j)⁻¹
  (match charges with
   | some q => [(q i * q j * d_1, 1)]
   | none => []) ++
  (match dipoles with
   | some p =>
      let d_3 := d_1 ^ 3
      let d_5 := d_1 ^ 5
      let delta := g.deltas i j
      [(d_3 * dot3 (p i) (p j), 1),
       (-3 * d_5, dot3 (p i) delta * dot3 delta (p j))] ++
      (match charges with
       | some q => [(q i * d_3, dot3 (p j) delta),
                    (q j * d_3, dot3 (p i) (-delta))]
       | none => [])
   | none => [])

/-- Model of `CoulombFF.yield_pair_gradients`. -/
noncomputable def yield_pair_gradients {n : ℕ} (g : PairFF.GeomCache n)
    (charges : Option (Fin n → ℝ)) (dipoles : Option (Fin n → Vec3))
    (i j : Fin n) : List (ℝ × Vec3) :=
  let d_2 := ((g.distances i j) ^ 2)⁻¹
  (match charges with
   | some q => [(-(q i) * q j * d_2, 0)]
   | none => []) ++
  (match dipoles with
   | some p =>
      let d_4 := d_2 ^ 2
      let d_6 := d_2 ^ 3
      let delta := g.deltas i j
      [(-3 * d_4 * dot3 (p i) (p j), 0),
       (15 * d_6, fun a => p i a * dot3 (p j) delta +
                           p j a * dot3 (p i) delta)] ++
      (match charges with
       | some q => [(-3 * q i * d_4, p j), (-3 * q j * d_4, -(p i))]
       | none => [])
   | none => [])

/-- Model of `CoulombFF.yield_pair_hessians`. -/
noncomputable def yield_pair_hessians {n : ℕ} (g : PairFF.GeomCache n)
    (charges : Option (Fin n → ℝ)) (dipoles : Option (Fin n → Vec3))
    (i j : Fin n) : List (ℝ × Mat3) :=
  let d_1 := (g.distances i j)⁻¹
  let d_3 := d_1 ^ 3
  (match charges with
   | some q => [(2 * q i * q j * d_3, 0)]
   | none => []) ++
  (match dipoles with
   | some p =>
      let d_5 := d_1 ^ 5
      let d_7 := d_1 ^ 7
      [(12 * d_5 * dot3 (p i) (p j), 0),
       (-90 * d_7, outer3 (p i) (p j) + outer3 (p j) (p i))] ++
      (match charges with
       | some q => [(12 * q i * d_5, 0), (12 * q j * d_5, 0)]
       | none => [])
   | none => [])

end CoulombFF

namespace DispersionFF

/-- Model of `DispersionFF.yield_pair_energies`. -/
noncomputable def yield_pair_energies {n : ℕ} (g : PairFF.GeomCache n)
    (strengths : Fin n → Fin n → ℝ) (i j : Fin n) : List (ℝ × ℝ) :=
  [(strengths i j * (g.distances i j) ^ (-6 : ℤ), 1)]

/-- Model of `DispersionFF.yield_pair_gradients`. -/
noncomputable def yield_pair_gradients {n : ℕ} (g : PairFF.GeomCache n)
    (strengths : Fin n → Fin n → ℝ) (i j : Fin n) : List (ℝ × Vec3) :=
  [(-6 * strengths i j * (g.distances i j) ^ (-7 : ℤ), 0)]

/-- Model of `DispersionFF.yield_pair_hessians`. -/
noncomputable def yield_pair_hessians {n : ℕ} (g : PairFF.GeomCache n)
    (strengths : Fin n → Fin n → ℝ) (i j : Fin n) : List (ℝ × Mat3) :=
  [(42 * strengths i j * (g.distances i j) ^ (-8 : ℤ), 0)]

end DispersionFF

namespace PauliFF

/-- Model of `PauliFF.yield_pair_energies`. -/
noncomputable def yield_pair_energies {n : ℕ} (g : PairFF.GeomCache n)
    (strengths : Fin n → Fin n → ℝ) (i j : Fin n) : List (ℝ × ℝ) :=
  [(strengths i j * (g.distances i j) ^ (-12 : ℤ), 1)]

/-- Model of `PauliFF.yield_pair_gradients`. -/
noncomputable def yield_pair_gradients {n : ℕ} (g : PairFF.GeomCache n)
    (strengths : Fin n → Fin n → ℝ) (i j : Fin n) : List (ℝ × Vec3) :=
  [(-12 * strengths i j * (g.distances i j) ^ (-13 : ℤ), 0)]

/-- Model of `PauliFF.yield_pair_hessians`. -/
noncomputable def yield_pair_hessians {n : ℕ} (g : PairFF.GeomCache n)
    (strengths : Fin n → Fin n → ℝ) (i j : Fin n) : List (ℝ × Mat3) :=
  [(12 * 13 * strengths i j * (g.distances i j) ^ (-14 : ℤ), 0)]

end PauliFF

/-- The `CoulombFF.energy` query as a full pipeline: construct the evaluator from a
caller mask and coordinates, then evaluate `PairFF.energy`. -/
noncomputable def coulombEnergy {n : ℕ} (mask : Fin n → Fin n → ℚ)
    (charges : Option (Fin n → ℝ)) (dipoles : Option (Fin n → Vec3))
    (c : Fin n → Vec3) : ℝ :=
  let s := PairFF.init n mask c
  PairFF.energy s.mask (CoulombFF.yield_pair_energies s.cache charges dipoles)

/-- The `DispersionFF.energy` query as a full pipeline. -/
noncomputable def dispersionEnergy {n : ℕ} (mask : Fin n → Fin n → ℚ)
    (strengths : Fin n → Fin n → ℝ) (c : Fin n → Vec3) : ℝ :=
  let s := PairFF.init n mask c
  PairFF.energy s.mask (DispersionFF.yield_pair_energies s.cache strengths)

/-- The `PauliFF.energy` query as a full pipeline. -/
noncomputable def pauliEnergy {n : ℕ} (mask : Fin n → Fin n → ℚ)
    (strengths : Fin n → Fin n → ℝ) (c : Fin n → Vec3) : ℝ :=
  let s := PairFF.init n mask c
  PairFF.energy s.mask (PauliFF.yield_pair_energies s.cache strengths)

/-- The `CoulombFF.gradient_component` query as a full pipeline. -/
noncomputable def coulombGradientComponent {n : ℕ} (mask : Fin n → Fin n → ℚ)
    (charges : Option (Fin n → ℝ)) (dipoles : Option (Fin n → Vec3))
    (c : Fin n → Vec3) (i : Fin n) : Vec3 :=
  let s := PairFF.init n mask c
  PairFF.gradient_component s.mask s.cache
    (CoulombFF.yield_pair_energies s.cache charges dipoles)
    (CoulombFF.yield_pair_gradients s.cache charges dipoles) i

/-- Number of terms each Coulomb generator yields, as a function of which
optional attributes are set. -/
def coulombTermCount (hasCharges hasDipoles : Bool) : ℕ :=
  (if hasCharges then 1 else 0) +
    (if hasDipoles then 2 + (if hasCharges then 2 else 0) else 0)

/-! ## Helper lemmas -/

/-- The constructor-zeroed mask vanishes on the diagonal. -/
theorem init_mask_diag {n : ℕ} (mask : Fin n → Fin n → ℚ) (c : Fin n → Vec3)
    (i : Fin n) : (PairFF.init n mask c).mask i i = 0 := by
  simp [PairFF.init]

/-! ## Claims -/

/-- C7: after construction with any caller-supplied `n × n` mask, the stored
mask has `mask[i][i] = 0` for every `i`, and the only state-mutating
operation of the evaluator, `update_coordinates`, leaves the mask field
unchanged (all query operations are pure), so the zero diagonal holds for
the evaluator's entire lifetime. -/
theorem mask_diag_zero_forever :
    (∀ (n : ℕ) (mask : Fin n → Fin n → ℚ) (c : Fin n → Vec3) (i : Fin n),
        (PairFF.init n mask c).mask i i = 0) ∧
    (∀ (n : ℕ) (s : PairFF.State n) (c : Fin n → Vec3),
        (s.updateCoordinates c).mask = s.mask) := by
  constructor
  · intro n mask c i
    exact init_mask_diag mask c i
  · intro n s c
    rfl

/-- C6: for `CoulombFF`, whatever the configuration of the optional
`charges`/`dipoles` attributes, the three term sequences produced by
`yield_pair_energies`, `yield_pair_gradients` and `yield_pair_hessians`
for a pair `(i, j)` all have the same length `coulombTermCount`, which
depends only on which optional attributes are set — so terms whose
prerequisite attribute is unset are omitted from all three sequences
simultaneously and the `zip`-based lock-step consumption stays aligned. -/
theorem coulomb_term_alignment (n : ℕ) (g : PairFF.GeomCache n)
    (charges : Option (Fin n → ℝ)) (dipoles : Option (Fin n → Vec3))
    (i j : Fin n) :
    (CoulombFF.yield_pair_energies g charges dipoles i j).length =
      coulombTermCount charges.isSome dipoles.isSome ∧
    (CoulombFF.yield_pair_gradients g charges dipoles i j).length =
      coulombTermCount charges.isSome dipoles.isSome ∧
    (CoulombFF.yield_pair_hessians g charges dipoles i j).length =
      coulombTermCount charges.isSome dipoles.isSome := by
  rcases charges with _ | q <;> rcases dipoles with _ | p <;>
    simp [CoulombFF.yield_pair_energies, CoulombFF.yield_pair_gradients,
      CoulombFF.yield_pair_hessians, coulombTermCount]

/-- C9: `PairFF.energy` reads only the strictly lower-triangular mask
entries `mask[i][j]` with `j < i`; two masks that agree there (but may
differ on the diagonal or upper triangle) give the same energy for the
same term provider. -/
theorem energy_lower_triangle_only {n : ℕ} (m1 m2 : Fin n → Fin n → ℚ)
    (yE : Fin n → Fin n → List (ℝ × ℝ))
    (h : ∀ i j : Fin n, j < i → m1 i j = m2 i j) :
    PairFF.energy m1 yE = PairFF.energy m2 yE := by
  unfold PairFF.energy PairFF.pairEnergy
  refine Finset.sum_congr rfl (fun i _ => Finset.sum_congr rfl (fun j hj => ?_))
  have hj' : j < i := (Finset.mem_filter.mp hj).2
  rw [h i j hj']

/-- Witness for C9 at a concrete input: a strictly-lower-triangular mask
versus the all-ones mask on two atoms. -/
theorem energy_lower_triangle_only_witness :
    (∀ i j : Fin 2, j < i →
      (fun i j : Fin 2 => if j < i then (1 : ℚ) else 0) i j =
      (fun _ _ : Fin 2 => (1 : ℚ)) i j) ∧
    PairFF.energy (fun i j : Fin 2 => if j < i then (1 : ℚ) else 0)
        (fun _ _ => [((1 : ℝ), 1)]) =
      PairFF.energy (fun _ _ : Fin 2 => (1 : ℚ)) (fun _ _ => [((1 : ℝ), 1)]) :=
  ⟨by decide, energy_lower_triangle_only _ _ _ (by decide)⟩

/-- C8: degenerate systems give exactly zero results: with `N = 0` the
energy, gradient and Hessian are zero (the gradient/Hessian statements are
over the empty index set); with `N = 1` and any constructed evaluator the
single self pair is masked out by the forced zero diagonal, so everything
is zero; and with an all-zero mask every pair fails the `mask > 0` test,
so everything is zero for any `N`. -/
theorem degenerate_systems_zero :
    (∀ (mask : Fin 0 → Fin 0 → ℚ) (g : PairFF.GeomCache 0)
        (yE : Fin 0 → Fin 0 → List (ℝ × ℝ))
        (yG : Fin 0 → Fin 0 → List (ℝ × Vec3))
        (yH : Fin 0 → Fin 0 → List (ℝ × Mat3)),
      PairFF.energy mask yE = 0 ∧
      (∀ i, PairFF.gradient mask g yE yG i = 0) ∧
      (∀ i j, PairFF.hessian mask g yE yG yH i j = 0)) ∧
    (∀ (mask : Fin 1 → Fin 1 → ℚ) (c : Fin 1 → Vec3)
        (yE : Fin 1 → Fin 1 → List (ℝ × ℝ))
        (yG : Fin 1 → Fin 1 → List (ℝ × Vec3))
        (yH : Fin 1 → Fin 1 → List (ℝ × Mat3)),
      PairFF.energy (PairFF.init 1 mask c).mask yE = 0 ∧
      (∀ i, PairFF.gradient (PairFF.init 1 mask c).mask
          (PairFF.init 1 mask c).cache yE yG i = 0) ∧
      (∀ i j, PairFF.hessian (PairFF.init 1 mask c).mask
          (PairFF.init 1 mask c).cache yE yG yH i j = 0)) ∧
    (∀ (n : ℕ) (g : PairFF.GeomCache n)
        (yE : Fin n → Fin n → List (ℝ × ℝ))
        (yG : Fin n → Fin n → List (ℝ × Vec3))
        (yH : Fin n → Fin n → List (ℝ × Mat3)),
      PairFF.energy (fun _ _ => (0 : ℚ)) yE = 0 ∧
      (∀ i, PairFF.gradient (fun _ _ => (0 : ℚ)) g yE yG i = 0) ∧
      (∀ i j, PairFF.hessian (fun _ _ => (0 : ℚ)) g yE yG yH i j = 0)) := by
  refine ⟨fun mask g yE yG yH => ⟨?_, fun i => i.elim0, fun i _ => i.elim0⟩,
    fun mask c yE yG yH => ⟨?_, ?_, ?_⟩, fun n g yE yG yH => ⟨?_, ?_, ?_⟩⟩
  · simp [PairFF.energy]
  · simp [PairFF.energy, Finset.sum_filter]
  · intro i
    have hi : i = 0 := Subsingleton.elim i 0
    funext a
    simp [PairFF.gradient, PairFF.gradient_component, PairFF.init, hi]
  · intro i j
    have hi : i = 0 := Subsingleton.elim i 0
    have hj : j = 0 := Subsingleton.elim j 0
    funext a b
    simp [PairFF.hessian, PairFF.hessian_component, PairFF.init, hi, hj]
  · simp [PairFF.energy]
  · intro i
    funext a
    simp [PairFF.gradient, PairFF.gradient_component]
  · intro i j
    funext a b
    simp [PairFF.hessian, PairFF.hessian_component]

/-- C2: for every constructed evaluator state (arbitrary caller mask,
arbitrary coordinates, arbitrary term providers — in particular those of
the three concrete potentials), the Hessian blocks of one row sum to the
zero 3×3 block: the diagonal block accumulates exactly the blocks that the
off-diagonal entries subtract, and the self pair is masked out by the
forced zero diagonal of the mask. -/
theorem hessian_row_sum {n : ℕ} (mask : Fin n → Fin n → ℚ) (c : Fin n → Vec3)
    (yE : Fin n → Fin n → List (ℝ × ℝ))
    (yG : Fin n → Fin n → List (ℝ × Vec3))
    (yH : Fin n → Fin n → List (ℝ × Mat3)) (i : Fin n) :
    ∑ j : Fin n, PairFF.hessian_component (PairFF.init n mask c).mask
      (PairFF.init n mask c).cache yE yG yH i j = 0 := by
  set m := (PairFF.init n mask c).mask with hm
  set g := (PairFF.init n mask c).cache with hg
  have hdiag : ¬ (0 < m i i) := by
    rw [hm, init_mask_diag]
    exact lt_irrefl 0
  funext a b
  rw [Finset.sum_apply, Finset.sum_apply]
  rw [← Finset.sum_erase_add _ _ (Finset.mem_univ i)]
  have hii : PairFF.hessian_component m g yE yG yH i i a b =
      ∑ k ∈ Finset.univ.erase i,
        (if 0 < m i k then PairFF.hessBlockEntry m g yE yG yH i k a b else 0) := by
    show (if i = i then _ else _) = _
    rw [if_pos rfl, ← Finset.sum_erase_add _ _ (Finset.mem_univ i),
      if_neg hdiag, add_zero]
  have hoff : ∀ j ∈ Finset.univ.erase i,
      PairFF.hessian_component m g yE yG yH i j a b =
      -(if 0 < m i j then PairFF.hessBlockEntry m g yE yG yH i j a b else 0) := by
    intro j hj
    have hji : j ≠ i := Finset.ne_of_mem_erase hj
    show (if i = j then _ else _) = _
    rw [if_neg (fun h => hji h.symm)]
    split <;> simp
  rw [Finset.sum_congr rfl hoff, hii, Finset.sum_neg_distrib, neg_add_cancel]
  simp

/-- Translating all coordinates by the same vector leaves every field of
the geometry cache unchanged, since the cache depends on the coordinates
only through the differences `c_i - c_j`. -/
theorem update_coordinates_translate {n : ℕ} (c : Fin n → Vec3) (t : Vec3) :
    PairFF.update_coordinates n (fun i => c i + t) =
      PairFF.update_coordinates n c := by
  have h : ∀ i j : Fin n, (c i + t) - (c j + t) = c i - c j := fun i j => by
    abel
  unfold PairFF.update_coordinates
  simp only [h]

/-- C4: for each of the three potentials with fixed mask and parameters,
replacing every coordinate `r_i` by `r_i + t` leaves `energy()` exactly
unchanged (in exact real arithmetic), for any coordinates with pairwise
distinct positions. -/
theorem energy_translation_invariant {n : ℕ} (mask : Fin n → Fin n → ℚ)
    (charges : Option (Fin n → ℝ)) (dipoles : Option (Fin n → Vec3))
    (strengthsD strengthsP : Fin n → Fin n → ℝ)
    (c : Fin n → Vec3) (t : Vec3)
    (hdist : ∀ i j : Fin n, i ≠ j → c i ≠ c j) :
    coulombEnergy mask charges dipoles (fun i => c i + t) =
      coulombEnergy mask charges dipoles c ∧
    dispersionEnergy mask strengthsD (fun i => c i + t) =
      dispersionEnergy mask strengthsD c ∧
    pauliEnergy mask strengthsP (fun i => c i + t) =
      pauliEnergy mask strengthsP c := by
  refine ⟨?_, ?_, ?_⟩ <;>
    simp only [coulombEnergy, dispersionEnergy, pauliEnergy, PairFF.init,
      update_coordinates_translate]

/-- Witness for C4: two distinct unit charges translated by `(1, 2, 3)`. -/
theorem energy_translation_invariant_witness :
    (∀ i j : Fin 2, i ≠ j →
      (![![0, 0, 0], ![1, 0, 0]] : Fin 2 → Vec3) i ≠
        ![![0, 0, 0], ![1, 0, 0]] j) ∧
    coulombEnergy (fun _ _ => 1) (some ![1, -1]) none
        (fun i => (![![0, 0, 0], ![1, 0, 0]] : Fin 2 → Vec3) i + ![1, 2, 3]) =
      coulombEnergy (fun _ _ => 1) (some ![1, -1]) none
        ![![0, 0, 0], ![1, 0, 0]] := by
  have hdist : ∀ i j : Fin 2, i ≠ j →
      (![![0, 0, 0], ![1, 0, 0]] : Fin 2 → Vec3) i ≠
        ![![0, 0, 0], ![1, 0, 0]] j := by
    intro i j hij heq
    fin_cases i <;> fin_cases j <;> first
      | exact hij rfl
      | simpa using congrFun heq 0
  exact ⟨hdist, (energy_translation_invariant (fun _ _ => 1) (some ![1, -1])
    none (fun _ _ => 0) (fun _ _ => 0) ![![0, 0, 0], ![1, 0, 0]] ![1, 2, 3]
    hdist).1⟩

/-- The product `dot3` of a vector with itself is invariant under negation, hence the
pair distance is symmetric in the pair. -/
theorem norm3_neg (u : Vec3) : norm3 (-u) = norm3 u := by
  unfold norm3 dot3
  congr 1
  refine Finset.sum_congr rfl (fun a _ => ?_)
  simp

/-- C5: after `update_coordinates` on pairwise-distinct coordinates, the
self-pair entries are `distances[i][i] = 0` and zero `directions`/
`dirouters` (the division branch is never taken for a self pair), while
for `i ≠ j` the cache holds `deltas[i][j] = r_i - r_j`,
`distances[i][j] = |deltas[i][j]|`,
`directions[i][j] = deltas[i][j]/distances[i][j]`, and the symmetries
`directions[i][j] = -directions[j][i]`, `distances[i][j] = distances[j][i]`
and `dirouters[i][j] = dirouters[j][i]` hold. -/
theorem update_coordinates_invariants {n : ℕ} (c : Fin n → Vec3)
    (hdist : ∀ i j : Fin n, i ≠ j → c i ≠ c j) :
    (∀ i, (PairFF.update_coordinates n c).distances i i = 0 ∧
      (PairFF.update_coordinates n c).directions i i = 0 ∧
      (PairFF.update_coordinates n c).dirouters i i = 0) ∧
    (∀ i j, i ≠ j →
      (PairFF.update_coordinates n c).deltas i j = c i - c j ∧
      (PairFF.update_coordinates n c).distances i j =
        norm3 ((PairFF.update_coordinates n c).deltas i j) ∧
      (PairFF.update_coordinates n c).directions i j =
        (fun a => (PairFF.update_coordinates n c).deltas i j a /
          (PairFF.update_coordinates n c).distances i j) ∧
      (PairFF.update_coordinates n c).directions i j =
        -(PairFF.update_coordinates n c).directions j i ∧
      (PairFF.update_coordinates n c).distances i j =
        (PairFF.update_coordinates n c).distances j i ∧
      (PairFF.update_coordinates n c).dirouters i j =
        (PairFF.update_coordinates n c).dirouters j i) := by
  have hsymm : ∀ i j : Fin n, norm3 (c i - c j) = norm3 (c j - c i) := by
    intro i j
    rw [← norm3_neg (c j - c i), neg_sub]
  have hdir : ∀ i j : Fin n, i ≠ j →
      (PairFF.update_coordinates n c).directions i j =
        -(PairFF.update_coordinates n c).directions j i := by
    intro i j hij
    show (if i = j then _ else _) = -(if j = i then _ else _)
    rw [if_neg hij, if_neg (Ne.symm hij)]
    funext a
    have : (c i - c j) a = -((c j - c i) a) := by
      show c i a - c j a = -(c j a - c i a)
      ring
    simp only [Pi.neg_apply, this, hsymm i j, neg_div]
  constructor
  · intro i
    refine ⟨?_, ?_, ?_⟩
    · show norm3 (c i - c i) = 0
      rw [sub_self]
      unfold norm3 dot3
      simp [Real.sqrt_eq_zero']
    · show (if i = i then _ else _) = _
      rw [if_pos rfl]
    · show (if i = i then _ else _) = _
      rw [if_pos rfl]
  · intro i j hij
    refine ⟨rfl, rfl, ?_, hdir i j hij, hsymm i j, ?_⟩
    · show (if i = j then (0 : Vec3)
          else fun a => (c i - c j) a / norm3 (c i - c j)) =
        (fun a => (c i - c j) a / norm3 (c i - c j))
      rw [if_neg hij]
    · show (if i = j then (0 : Mat3)
          else outer3 (fun a => (c i - c j) a / norm3 (c i - c j))
            (fun a => (c i - c j) a / norm3 (c i - c j))) =
        (if j = i then (0 : Mat3)
          else outer3 (fun a => (c j - c i) a / norm3 (c j - c i))
            (fun a => (c j - c i) a / norm3 (c j - c i)))
      rw [if_neg hij, if_neg (Ne.symm hij)]
      funext a b
      show ((c i - c j) a / norm3 (c i - c j)) *
          ((c i - c j) b / norm3 (c i - c j)) =
        ((c j - c i) a / norm3 (c j - c i)) *
          ((c j - c i) b / norm3 (c j - c i))
      have ha : (c i - c j) a / norm3 (c i - c j) =
          -((c j - c i) a / norm3 (c j - c i)) := by
        have h1 : (c i - c j) a = -((c j - c i) a) := by
          show c i a - c j a = -(c j a - c i a)
          ring
        rw [h1, hsymm i j, neg_div]
      have hb : (c i - c j) b / norm3 (c i - c j) =
          -((c j - c i) b / norm3 (c j - c i)) := by
        have h1 : (c i - c j) b = -((c j - c i) b) := by
          show c i b - c j b = -(c j b - c i b)
          ring
        rw [h1, hsymm i j, neg_div]
      rw [ha, hb, neg_mul_neg]

/-- Witness for C5: the cache invariants at two distinct concrete atoms. -/
theorem update_coordinates_invariants_witness :
    (∀ i j : Fin 2, i ≠ j →
      (![![0, 0, 0], ![1, 0, 0]] : Fin 2 → Vec3) i ≠
        ![![0, 0, 0], ![1, 0, 0]] j) ∧
    ((∀ i, (PairFF.update_coordinates 2 ![![0, 0, 0], ![1, 0, 0]]).distances i i = 0 ∧
      (PairFF.update_coordinates 2 ![![0, 0, 0], ![1, 0, 0]]).directions i i = 0 ∧
      (PairFF.update_coordinates 2 ![![0, 0, 0], ![1, 0, 0]]).dirouters i i = 0) ∧
    (∀ i j, i ≠ j →
      (PairFF.update_coordinates 2 ![![0, 0, 0], ![1, 0, 0]]).deltas i j =
        (![![0, 0, 0], ![1, 0, 0]] : Fin 2 → Vec3) i - ![![0, 0, 0], ![1, 0, 0]] j ∧
      (PairFF.update_coordinates 2 ![![0, 0, 0], ![1, 0, 0]]).distances i j =
        norm3 ((PairFF.update_coordinates 2 ![![0, 0, 0], ![1, 0, 0]]).deltas i j) ∧
      (PairFF.update_coordinates 2 ![![0, 0, 0], ![1, 0, 0]]).directions i j =
        (fun a => (PairFF.update_coordinates 2 ![![0, 0, 0], ![1, 0, 0]]).deltas i j a /
          (PairFF.update_coordinates 2 ![![0, 0, 0], ![1, 0, 0]]).distances i j) ∧
      (PairFF.update_coordinates 2 ![![0, 0, 0], ![1, 0, 0]]).directions i j =
        -(PairFF.update_coordinates 2 ![![0, 0, 0], ![1, 0, 0]]).directions j i ∧
      (PairFF.update_coordinates 2 ![![0, 0, 0], ![1, 0, 0]]).distances i j =
        (PairFF.update_coordinates 2 ![![0, 0, 0], ![1, 0, 0]]).distances j i ∧
      (PairFF.update_coordinates 2 ![![0, 0, 0], ![1, 0, 0]]).dirouters i j =
        (PairFF.update_coordinates 2 ![![0, 0, 0], ![1, 0, 0]]).dirouters j i)) := by
  have hdist : ∀ i j : Fin 2, i ≠ j →
      (![![0, 0, 0], ![1, 0, 0]] : Fin 2 → Vec3) i ≠
        ![![0, 0, 0], ![1, 0, 0]] j := by
    intro i j hij heq
    fin_cases i <;> fin_cases j <;> first
      | exact hij rfl
      | simpa using congrFun heq 0
  exact ⟨hdist, update_coordinates_invariants ![![0, 0, 0], ![1, 0, 0]] hdist⟩

/-- C3: `CoulombFF` with charges `[1, -1]`, no dipoles, coordinates
`[0,0,0]` and `[1,0,0]`, mask fully on off the diagonal: `energy()` is
exactly `-1` and `gradient_component(0)` is exactly `(-1, 0, 0)`. -/
theorem coulomb_two_charge_scenario :
    coulombEnergy (fun _ _ => 1) (some ![1, -1]) none
      ![![0, 0, 0], ![1, 0, 0]] = -1 ∧
    coulombGradientComponent (fun _ _ => 1) (some ![1, -1]) none
      ![![0, 0, 0], ![1, 0, 0]] 0 = ![-1, 0, 0] := by
  have h1 : norm3 ![(1 : ℝ), 0, 0] = 1 := by
    simp [norm3, dot3, Fin.sum_univ_three]
  have h2 : norm3 ![(-1 : ℝ), 0, 0] = 1 := by
    simp [norm3, dot3, Fin.sum_univ_three]
  constructor
  · simp [coulombEnergy, PairFF.energy, PairFF.pairEnergy, PairFF.init,
      PairFF.update_coordinates, CoulombFF.yield_pair_energies,
      Fin.sum_univ_two, Finset.sum_filter, h1]
  · funext a
    fin_cases a <;>
      simp [coulombGradientComponent, PairFF.gradient_component, PairFF.init,
        PairFF.update_coordinates, CoulombFF.yield_pair_energies,
        CoulombFF.yield_pair_gradients, Fin.sum_univ_two, h2]

/-! ## Operational (list-based) model

The model below follows the same source code, but keeps the Python-level
partiality: the evaluator stores an optional geometry (absent when the
constructor was called without coordinates), `numpy` mask indexing can
raise `IndexError`, and touching the never-assigned `self.coordinates` or
`self.numc` raises `AttributeError`.  Failures are returned as
`Except PyErr`. -/

/-- The Python exceptions that the modelled code paths can raise. -/
inductive PyErr where
  | attributeError
  | indexError
deriving DecidableEq

namespace PairFFB

/-- Model of `numpy`-style 2-D indexing `mask[i, j]`: `IndexError` when either index
is out of range. -/
def lookup2 (m : List (List ℚ)) (i j : ℕ) : Except PyErr ℚ :=
  match m.get? i with
  | none => .error .indexError
  | some row =>
    match row.get? j with
    | none => .error .indexError
    | some q => .ok q

/-- The attributes assigned by `PairFF.update_coordinates`: the coordinate
list, `numc = len(coordinates)` and the derived pairwise caches (kept as
total functions of the indices; the code only ever reads entries below
`numc`, which are exactly the entries the loops of the source fill in). -/
structure GeomL where
  coords : List Vec3
  numc : ℕ
  deltas : ℕ → ℕ → Vec3
  distances : ℕ → ℕ → ℝ
  directions : ℕ → ℕ → Vec3
  dirouters : ℕ → ℕ → Mat3

/-- The geometry rebuild performed by `PairFF.update_coordinates` given the
coordinate list. -/
noncomputable def buildGeom (coords : List Vec3) : GeomL where
  coords := coords
  numc := coords.length
  deltas := fun i j => coords.getD i 0 - coords.getD j 0
  distances := fun i j => norm3 (coords.getD i 0 - coords.getD j 0)
  directions := fun i j =>
    if i = j then 0 else
      fun a => (coords.getD i 0 - coords.getD j 0) a /
        norm3 (coords.getD i 0 - coords.getD j 0)
  dirouters := fun i j =>
    if i = j then 0 else
      outer3 (fun a => (coords.getD i 0 - coords.getD j 0) a /
          norm3 (coords.getD i 0 - coords.getD j 0))
        (fun a => (coords.getD i 0 - coords.getD j 0) a /
          norm3 (coords.getD i 0 - coords.getD j 0))

/-- Evaluator state: the stored mask rows, and the optional geometry (the
attributes `coordinates`/`numc`/`distances`/... exist only after
coordinates have been supplied). -/
structure State where
  mask : List (List ℚ)
  geom : Option GeomL

/-- Model of `self.mask.ravel()[::len(self.mask)+1] = 0`: for a square `N × N` mask
the strided flat assignment zeroes exactly the diagonal entries. -/
def zeroDiag (m : List (List ℚ)) : List (List ℚ) :=
  m.mapIdx (fun i row => row.mapIdx (fun j q => if i = j then 0 else q))

/-- Model of `PairFF.__init__`: optionally update coordinates, then store the mask
with its diagonal forced to zero. -/
noncomputable def init (mask : List (List ℚ)) (coords : Option (List Vec3)) :
    State where
  mask := zeroDiag mask
  geom := coords.map buildGeom

/-- Model of `PairFF.update_coordinates`: with an argument, store and rebuild; with
no argument, rebuild from `self.coordinates` — an `AttributeError` if that
attribute was never assigned. -/
noncomputable def update_coordinates (s : State) :
    Option (List Vec3) → Except PyErr State
  | some c => .ok { s with geom := some (buildGeom c) }
  | none =>
    match s.geom with
    | some g => .ok { s with geom := some (buildGeom g.coords) }
    | none => .error .attributeError

/-- One step of the inner loop of `PairFF.energy`: test
`self.mask[index1, index2] > 0` (which may raise `IndexError`) and, when
positive, add the pair's term sum to the accumulator. -/
def energyPairStep (mask : List (List ℚ)) (yE : ℕ → ℕ → List (ℝ × ℝ))
    (i j : ℕ) (acc : ℝ) : Except PyErr ℝ := do
  let mq ← lookup2 mask i j
  if 0 < mq then
    pure (acc + ((yE i j).map (fun t => t.1 * t.2 * (mq : ℝ))).sum)
  else
    pure acc

/-- The inner loop of `PairFF.energy`: `for index2 in xrange(index1)`. -/
def energyRow (mask : List (List ℚ)) (yE : ℕ → ℕ → List (ℝ × ℝ))
    (i : ℕ) (acc : ℝ) : Except PyErr ℝ :=
  (List.range i).foldlM (fun acc2 j => energyPairStep mask yE i j acc2) acc

/-- The loop of `PairFF.energy` over `index1 in range(numc)`,
`index2 in range(index1)`: mask lookups may raise `IndexError`. -/
def energyLoop (mask : List (List ℚ)) (numc : ℕ)
    (yE : ℕ → ℕ → List (ℝ × ℝ)) : Except PyErr ℝ :=
  (List.range numc).foldlM (fun acc i => energyRow mask yE i acc) 0

/-- Model of `PairFF.energy`: reading `self.numc` fails with `AttributeError` when
no coordinates were ever supplied.  The subclass term provider `yE` reads
the geometry attributes, so it receives the stored geometry. -/
noncomputable def energy (s : State)
    (yE : GeomL → ℕ → ℕ → List (ℝ × ℝ)) : Except PyErr ℝ :=
  match s.geom with
  | none => .error .attributeError
  | some g => energyLoop s.mask g.numc (yE g)

/-- Model of `PairFF.gradient_component`. -/
noncomputable def gradient_component (s : State)
    (yE : GeomL → ℕ → ℕ → List (ℝ × ℝ))
    (yG : GeomL → ℕ → ℕ → List (ℝ × Vec3)) (i : ℕ) : Except PyErr Vec3 :=
  match s.geom with
  | none => .error .attributeError
  | some g =>
    (List.range g.numc).foldlM (fun acc j => do
      let mq ← lookup2 s.mask i j
      if 0 < mq then
        pure (fun a => acc a + (((yE g i j).zip (yG g i j)).map (fun t =>
          (t.2.1 * g.directions i j a * t.1.2 + t.1.1 * t.2.2 a) *
            (mq : ℝ))).sum)
      else
        pure acc) 0

/-- Model of `PairFF.gradient`: the stacked `gradient_component(index1)` rows (the
`numpy.zeros((self.numc, 3))` allocation reads `self.numc` first). -/
noncomputable def gradient (s : State)
    (yE : GeomL → ℕ → ℕ → List (ℝ × ℝ))
    (yG : GeomL → ℕ → ℕ → List (ℝ × Vec3)) : Except PyErr (List Vec3) :=
  match s.geom with
  | none => .error .attributeError
  | some g => (List.range g.numc).mapM (fun i => gradient_component s yE yG i)

/-- One pair's block inside `PairFF.hessian_component` (before the sign
and accumulation), entry `(a, b)`. -/
noncomputable def hessBlock (g : GeomL)
    (yE : ℕ → ℕ → List (ℝ × ℝ)) (yG : ℕ → ℕ → List (ℝ × Vec3))
    (yH : ℕ → ℕ → List (ℝ × Mat3)) (mq : ℚ) (i j : ℕ) : Mat3 := fun a b =>
  (((yE i j).zip ((yG i j).zip (yH i j))).map (fun t =>
    ( t.2.2.1 * g.dirouters i j a b * t.1.2
    + t.2.1.1 * (ident3 a b - g.dirouters i j a b) * t.1.2 *
        (g.distances i j)⁻¹
    + t.2.1.1 * (g.directions i j a * t.2.1.2 b)
    + t.2.1.1 * (t.2.1.2 a * g.directions i j b)
    + t.1.1 * t.2.2.2 a b) * (mq : ℝ))).sum

/-- Model of `PairFF.hessian_component`: the diagonal branch loops over
`range(self.numc)` (an `AttributeError` without coordinates); the
off-diagonal branch tests `self.mask[index1, index2] > 0` first and only
touches the geometry attributes when the test passes. -/
noncomputable def hessian_component (s : State)
    (yE : GeomL → ℕ → ℕ → List (ℝ × ℝ))
    (yG : GeomL → ℕ → ℕ → List (ℝ × Vec3))
    (yH : GeomL → ℕ → ℕ → List (ℝ × Mat3)) (i j : ℕ) :
    Except PyErr Mat3 :=
  if i = j then
    match s.geom with
    | none => .error .attributeError
    | some g =>
      (List.range g.numc).foldlM (fun acc k => do
        let mq ← lookup2 s.mask i k
        if 0 < mq then
          pure (fun a b => acc a b + hessBlock g (yE g) (yG g) (yH g) mq i k a b)
        else
          pure acc) 0
  else do
    let mq ← lookup2 s.mask i j
    if 0 < mq then
      match s.geom with
      | none => .error .attributeError
      | some g => pure (fun a b => -hessBlock g (yE g) (yG g) (yH g) mq i j a b)
    else
      pure 0

/-- Model of `PairFF.hessian` (the `numpy.zeros` allocation reads `self.numc`
first). -/
noncomputable def hessian (s : State)
    (yE : GeomL → ℕ → ℕ → List (ℝ × ℝ))
    (yG : GeomL → ℕ → ℕ → List (ℝ × Vec3))
    (yH : GeomL → ℕ → ℕ → List (ℝ × Mat3)) :
    Except PyErr (List (List Mat3)) :=
  match s.geom with
  | none => .error .attributeError
  | some g =>
    (List.range g.numc).mapM (fun i =>
      (List.range g.numc).mapM (fun j => hessian_component s yE yG yH i j))

/-- Model of `PairFF.gradient_flat`: `self.gradient().ravel()`. -/
noncomputable def gradient_flat (s : State)
    (yE : GeomL → ℕ → ℕ → List (ℝ × ℝ))
    (yG : GeomL → ℕ → ℕ → List (ℝ × Vec3)) : Except PyErr (List ℝ) :=
  (gradient s yE yG).map (fun rows =>
    rows.flatMap (fun v => [v 0, v 1, v 2]))

/-- Model of `PairFF.hessian_flat`: the block tensor reshaped to `3N × 3N` rows. -/
noncomputable def hessian_flat (s : State)
    (yE : GeomL → ℕ → ℕ → List (ℝ × ℝ))
    (yG : GeomL → ℕ → ℕ → List (ℝ × Vec3))
    (yH : GeomL → ℕ → ℕ → List (ℝ × Mat3)) : Except PyErr (List (List ℝ)) :=
  (hessian s yE yG yH).map (fun blocks =>
    blocks.flatMap (fun blockRow =>
      ([0, 1, 2] : List (Fin 3)).map (fun a =>
        blockRow.flatMap (fun m => [m a 0, m a 1, m a 2]))))

/-- Model of `CoulombFF.yield_pair_energies` in the list model (`charges[index]` is
modelled with a default read; all reads the claims exercise are in
range). -/
noncomputable def coulomb_yield_pair_energies (charges : Option (List ℝ))
    (dipoles : Option (List Vec3)) (g : GeomL) (i j : ℕ) : List (ℝ × ℝ) :=
  let d_1 := (g.distances i j)⁻¹
  (match charges with
   | some q => [(q.getD i 0 * q.getD j 0 * d_1, 1)]
   | none => []) ++
  (match dipoles with
   | some p =>
      let d_3 := d_1 ^ 3
      let d_5 := d_1 ^ 5
      let delta := g.deltas i j
      [(d_3 * dot3 (p.getD i 0) (p.getD j 0), 1),
       (-3 * d_5, dot3 (p.getD i 0) delta * dot3 delta (p.getD j 0))] ++
      (match charges with
       | some q => [(q.getD i 0 * d_3, dot3 (p.getD j 0) delta),
                    (q.getD j 0 * d_3, dot3 (p.getD i 0) (-delta))]
       | none => [])
   | none => [])

end PairFFB

/-- C10: constructing an evaluator without coordinates stores no
coordinates or geometry cache, and a subsequent `update_coordinates()`
without an argument, or any query operation (`energy`, `gradient`,
`hessian`, `gradient_flat`, `hessian_flat`) before coordinates are first
supplied, fails with an `AttributeError` instead of returning a result. -/
theorem no_coordinates_attribute_error (mask : List (List ℚ))
    (yE : PairFFB.GeomL → ℕ → ℕ → List (ℝ × ℝ))
    (yG : PairFFB.GeomL → ℕ → ℕ → List (ℝ × Vec3))
    (yH : PairFFB.GeomL → ℕ → ℕ → List (ℝ × Mat3)) :
    (PairFFB.init mask none).geom = none ∧
    PairFFB.update_coordinates (PairFFB.init mask none) none =
      .error .attributeError ∧
    PairFFB.energy (PairFFB.init mask none) yE = .error .attributeError ∧
    PairFFB.gradient (PairFFB.init mask none) yE yG =
      .error .attributeError ∧
    PairFFB.hessian (PairFFB.init mask none) yE yG yH =
      .error .attributeError ∧
    PairFFB.gradient_flat (PairFFB.init mask none) yE yG =
      .error .attributeError ∧
    PairFFB.hessian_flat (PairFFB.init mask none) yE yG yH =
      .error .attributeError :=
  ⟨rfl, rfl, rfl, rfl, rfl, rfl, rfl⟩

/-- C1 counterexample: a `CoulombFF` evaluator built with a 2×2 mask that
is fully on, given a length-1 coordinate array through
`update_coordinates` and then evaluated, raises nothing at all: the first
evaluation silently returns `0.0` (the loops range over `numc = 1` only),
rather than raising a `DimensionError` (no such check or exception exists
in the code). -/
theorem dimension_mismatch_counterexample :
    (PairFFB.update_coordinates
        (PairFFB.init [[1, 1], [1, 1]] none) (some [0]) >>= fun s =>
      PairFFB.energy s
        (PairFFB.coulomb_yield_pair_energies (some [1, -1]) none)) =
      .ok 0 := rfl

/-- Bind of `Except` on a success, reduced. -/
theorem ok_bind {α β : Type} (a : α) (f : α → Except PyErr β) :
    (Except.ok a >>= f) = f a := rfl

/-- Bind of `Except` on a failure, reduced. -/
theorem error_bind {α β : Type} (e : PyErr)
    (f : α → Except PyErr β) :
    ((Except.error e : Except PyErr α) >>= f) = Except.error e := rfl

/-- A monadic fold whose every step succeeds succeeds. -/
theorem foldlM_ok_of_forall {α β : Type} (f : β → α → Except PyErr β)
    (l : List α) (h : ∀ a ∈ l, ∀ x : β, ∃ r, f x a = .ok r) :
    ∀ x : β, ∃ r, l.foldlM f x = .ok r := by
  induction l with
  | nil => exact fun x => ⟨x, rfl⟩
  | cons a t ih =>
    intro x
    obtain ⟨r, hr⟩ := h a (List.mem_cons_self a t) x
    obtain ⟨r2, hr2⟩ := ih (fun b hb x' => h b (List.mem_cons_of_mem a hb) x') r
    refine ⟨r2, ?_⟩
    rw [List.foldlM_cons, hr, ok_bind]
    exact hr2

/-- In-range mask indexing succeeds on an `N × N` mask. -/
theorem lookup2_ok (m : List (List ℚ)) (N : ℕ) (hlen : m.length = N)
    (hrows : ∀ (i : ℕ) (h : i < m.length), (m.get ⟨i, h⟩).length = N)
    (i j : ℕ) (hi : i < N) (hj : j < N) :
    ∃ q, PairFFB.lookup2 m i j = .ok q := by
  have hi' : i < m.length := by omega
  have hrow : m[i] = m.get ⟨i, hi'⟩ := rfl
  have h1 : m[i]? = some m[i] := List.getElem?_eq_getElem hi'
  have hj' : j < m[i].length := by rw [hrow, hrows i hi']; exact hj
  have h2 : m[i][j]? = some m[i][j] := List.getElem?_eq_getElem hj'
  refine ⟨m[i][j], ?_⟩
  simp [PairFFB.lookup2, h1, h2]

/-- Reading a mask row past the end raises `IndexError`. -/
theorem lookup2_row_oob (m : List (List ℚ)) (i j : ℕ) (hi : m.length ≤ i) :
    PairFFB.lookup2 m i j = .error .indexError := by
  have h1 : m.get? i = none := List.get?_eq_none.mpr hi
  rw [List.get?_eq_getElem?] at h1
  simp [PairFFB.lookup2, h1]

/-- The diagonal zeroing preserves the number of mask rows. -/
theorem zeroDiag_length (m : List (List ℚ)) :
    (PairFFB.zeroDiag m).length = m.length := by
  simp [PairFFB.zeroDiag]

/-- The diagonal zeroing preserves each row's length. -/
theorem zeroDiag_row_length (m : List (List ℚ)) (N : ℕ)
    (hrows : ∀ row ∈ m, row.length = N) :
    ∀ (i : ℕ) (h : i < (PairFFB.zeroDiag m).length),
      ((PairFFB.zeroDiag m).get ⟨i, h⟩).length = N := by
  intro i h
  have h' : i < m.length := by rwa [zeroDiag_length] at h
  unfold PairFFB.zeroDiag
  simp only [List.get_mapIdx m _ i h', List.length_mapIdx]
  exact hrows _ (List.get_mem m i h')

/-- An energy pair step with an in-range mask entry succeeds. -/
theorem energyPairStep_ok (mask : List (List ℚ))
    (yE : ℕ → ℕ → List (ℝ × ℝ)) (i j : ℕ) (q : ℚ)
    (hq : PairFFB.lookup2 mask i j = .ok q) (acc : ℝ) :
    ∃ r, PairFFB.energyPairStep mask yE i j acc = .ok r := by
  unfold PairFFB.energyPairStep
  rw [hq, ok_bind]
  by_cases h0 : 0 < q
  · rw [if_pos h0]
    exact ⟨_, rfl⟩
  · rw [if_neg h0]
    exact ⟨_, rfl⟩

/-- An energy pair step whose mask lookup is out of range raises. -/
theorem energyPairStep_err (mask : List (List ℚ))
    (yE : ℕ → ℕ → List (ℝ × ℝ)) (i j : ℕ) (acc : ℝ)
    (herr : PairFFB.lookup2 mask i j = .error .indexError) :
    PairFFB.energyPairStep mask yE i j acc = .error .indexError := by
  unfold PairFFB.energyPairStep
  rw [herr, error_bind]

/-- An energy row below the mask size completes without error. -/
theorem energyRow_ok (mask : List (List ℚ)) (N : ℕ)
    (hlen : mask.length = N)
    (hrows : ∀ (i : ℕ) (h : i < mask.length), (mask.get ⟨i, h⟩).length = N)
    (yE : ℕ → ℕ → List (ℝ × ℝ)) (i : ℕ) (hi : i < N) (acc : ℝ) :
    ∃ r, PairFFB.energyRow mask yE i acc = .ok r := by
  unfold PairFFB.energyRow
  refine foldlM_ok_of_forall _ _ (fun j hj x => ?_) acc
  have hjN : j < N := lt_trans (List.mem_range.mp hj) hi
  obtain ⟨q, hq⟩ := lookup2_ok mask N hlen hrows i j hi hjN
  exact energyPairStep_ok mask yE i j q hq x

/-- The energy row at index `numc = N` (one past the last mask row) raises
`IndexError` as soon as its inner loop is nonempty, i.e. when `1 ≤ N`. -/
theorem energyRow_err (mask : List (List ℚ)) (N : ℕ)
    (hlen : mask.length = N) (hN : 1 ≤ N)
    (yE : ℕ → ℕ → List (ℝ × ℝ)) (acc : ℝ) :
    PairFFB.energyRow mask yE N acc = .error .indexError := by
  unfold PairFFB.energyRow
  have hsplit : List.range N = 0 :: (List.range (N - 1)).map Nat.succ := by
    conv_lhs => rw [show N = (N - 1) + 1 by omega]
    exact List.range_succ_eq_map (N - 1)
  rw [hsplit, List.foldlM_cons]
  rw [energyPairStep_err mask yE N 0 acc
    (lookup2_row_oob mask N 0 (by omega)), error_bind]

/-- First evaluation with `numc ≤ N` silently succeeds. -/
theorem energyLoop_ok (mask : List (List ℚ)) (N : ℕ)
    (hlen : mask.length = N)
    (hrows : ∀ (i : ℕ) (h : i < mask.length), (mask.get ⟨i, h⟩).length = N)
    (yE : ℕ → ℕ → List (ℝ × ℝ)) (M : ℕ) (hM : M ≤ N) :
    ∃ r, PairFFB.energyLoop mask M yE = .ok r := by
  unfold PairFFB.energyLoop
  refine foldlM_ok_of_forall _ _ (fun i hi x => ?_) 0
  exact energyRow_ok mask N hlen hrows yE i
    (lt_of_lt_of_le (List.mem_range.mp hi) hM) x

/-- First evaluation with `numc > N ≥ 1` raises `IndexError` at the first
out-of-range mask row. -/
theorem energyLoop_err (mask : List (List ℚ)) (N : ℕ)
    (hlen : mask.length = N)
    (hrows : ∀ (i : ℕ) (h : i < mask.length), (mask.get ⟨i, h⟩).length = N)
    (yE : ℕ → ℕ → List (ℝ × ℝ)) (M : ℕ) (hN : 1 ≤ N) (hNM : N < M) :
    PairFFB.energyLoop mask M yE = .error .indexError := by
  unfold PairFFB.energyLoop
  have hsplit : List.range M =
      List.range (N + 1) ++ (List.range (M - (N + 1))).map ((N + 1) + ·) := by
    rw [← List.range_add]
    congr 1
    omega
  obtain ⟨r0, hr0⟩ := foldlM_ok_of_forall
    (fun (acc : ℝ) i => PairFFB.energyRow mask yE i acc) (List.range N)
    (fun i hi x => energyRow_ok mask N hlen hrows yE i (List.mem_range.mp hi) x)
    0
  rw [hsplit, List.foldlM_append, List.range_succ, List.foldlM_append, hr0,
    ok_bind]
  simp only [List.foldlM_cons, List.foldlM_nil]
  rw [energyRow_err mask N hlen hN yE r0, error_bind, error_bind]

/-- C1 (amended): for an evaluator with a square `N × N` mask (`N ≥ 1`),
updating to a coordinate array whose length differs from `N` never raises
a `DimensionError` (no such check or exception exists): when the array is
longer than `N`, the first evaluation raises an `IndexError` from the
out-of-range mask row access, and when it is shorter, the first evaluation
silently returns a value computed over the leading atoms only. -/
theorem dimension_mismatch_behavior (mask : List (List ℚ)) (N : ℕ)
    (coords : List Vec3) (yE : PairFFB.GeomL → ℕ → ℕ → List (ℝ × ℝ))
    (hlen : mask.length = N) (hrows : ∀ row ∈ mask, row.length = N)
    (hN : 1 ≤ N) :
    (N < coords.length →
      (PairFFB.update_coordinates (PairFFB.init mask none) (some coords) >>=
        fun s => PairFFB.energy s yE) = .error .indexError) ∧
    (coords.length ≤ N →
      ∃ r, (PairFFB.update_coordinates (PairFFB.init mask none)
        (some coords) >>= fun s => PairFFB.energy s yE) = .ok r) := by
  have hlen' : (PairFFB.zeroDiag mask).length = N := by
    rw [zeroDiag_length, hlen]
  have hrows' : ∀ (i : ℕ) (h : i < (PairFFB.zeroDiag mask).length),
      ((PairFFB.zeroDiag mask).get ⟨i, h⟩).length = N :=
    zeroDiag_row_length mask N hrows
  constructor
  · intro hM
    show PairFFB.energyLoop (PairFFB.zeroDiag mask) coords.length
      (yE (PairFFB.buildGeom coords)) = .error .indexError
    exact energyLoop_err _ N hlen' hrows' _ _ hN hM
  · intro hM
    show ∃ r, PairFFB.energyLoop (PairFFB.zeroDiag mask) coords.length
      (yE (PairFFB.buildGeom coords)) = .ok r
    exact energyLoop_ok _ N hlen' hrows' _ _ hM

/-- Witness for the amended C1 at concrete inputs: a 2×2 all-ones mask; a
three-atom update raises `IndexError` on first evaluation, a one-atom
update silently evaluates. -/
theorem dimension_mismatch_behavior_witness :
    (([[1, 1], [1, 1]] : List (List ℚ)).length = 2 ∧
      (∀ row ∈ ([[1, 1], [1, 1]] : List (List ℚ)), row.length = 2) ∧
      1 ≤ 2) ∧
    (PairFFB.update_coordinates (PairFFB.init [[1, 1], [1, 1]] none)
        (some [0, 0, 0]) >>= fun s =>
      PairFFB.energy s (fun _ _ _ => [])) = .error .indexError ∧
    (∃ r, (PairFFB.update_coordinates (PairFFB.init [[1, 1], [1, 1]] none)
        (some [0]) >>= fun s =>
      PairFFB.energy s (fun _ _ _ => [])) = .ok r) := by
  refine ⟨⟨rfl, by decide, by decide⟩, ?_, ?_⟩
  · exact (dimension_mismatch_behavior [[1, 1], [1, 1]] 2 [0, 0, 0]
      (fun _ _ _ => []) rfl (by decide) (by decide)).1 (by decide)
  · exact (dimension_mismatch_behavior [[1, 1], [1, 1]] 2 [0]
      (fun _ _ _ => []) rfl (by decide) (by decide)).2 (by decide)
